import Mathlib

/-!
Verification development for the `toml` decoding pipeline: a shallow
embedding of the repository's scanner (lex.go), parser (parse.go) and
structural type system (type-check.go), together with theorems checking
the specification's claims against it.

Modelling conventions:
* Go strings are modelled as `List Char` (one entry per rune; the byte
  width recorded by the scanner is 1 per consumed rune, 0 at end of
  input, which is faithful for the code points the grammar admits).
* The scanner's channel of items is modelled by the list of items each
  state-transition step emits; `lexRun` collects them with explicit fuel
  (the Go loop has no fuel; a fuel-exhausted run simply yields a prefix
  of the stream).
* `panic(parseError(...))` (user-facing) and `p.bug`/`log.Fatalf`
  (internal-invariant abort) are modelled as two distinct error
  constructors; neither is a successful parse.
-/

/-- Token kinds, from the `itemType` constants of lex.go.  `itemRawString`
is referenced by parse.go but declared only in a scanner generation that
is not part of the sources here; it is included so the parser embedding
can be faithful to parse.go. -/
inductive itemType where
  | itemError
  | itemNIL
  | itemEOF
  | itemText
  | itemString
  | itemBool
  | itemInteger
  | itemFloat
  | itemArray
  | itemDatetime
  | itemKeyGroupStart
  | itemKeyGroupEnd
  | itemKeyStart
  | itemArrayStart
  | itemArrayEnd
  | itemCommentStart
  | itemRawString
deriving Repr, DecidableEq

/-- A scanner token: kind, literal text and source line (struct `item`). -/
structure item where
  typ : itemType
  val : String
  line : Nat
deriving Repr, DecidableEq

/-- Named scanner states of lex.go.  `lexSkip` in the Go code returns a
closure that first discards pending input and then enters the wrapped
state; it is represented here as a state carrying its continuation. -/
inductive LexState where
  | lexTop
  | lexTopValueEnd
  | lexKeyGroupStart
  | lexKeyGroup
  | lexKeyStart
  | lexKey
  | lexKeyEnd
  | lexValue
  | lexString
  | lexStringEscape
  | lexNumberStart
  | lexNumber
  | lexFloatStart
  | lexFloat
  | lexTrue
  | lexFalse
  | lexCommentStart
  | lexComment
  | lexSkip (next : LexState)
deriving Repr, DecidableEq

/-- Scanner cursor state (struct `lexer` of lex.go, without the item
channel and the current state function, which are handled by `lexStep`
and `lexRun`).  The continuation stack keeps its top at the head. -/
structure Lexer where
  input : List Char
  start : Nat
  pos : Nat
  width : Nat
  line : Nat
  stack : List LexState
deriving Repr, DecidableEq

/-- isWhitespace of lex.go: tab or space. -/
def isWhitespace (r : Char) : Bool :=
  r == '\t' || r == ' '

/-- isNL of lex.go: line feed or carriage return. -/
def isNL (r : Char) : Bool :=
  r == '\n' || r == '\r'

/-- isDigit of lex.go. -/
def isDigit (r : Char) : Bool :=
  '0' ≤ r && r ≤ '9'

/-- escapeSpecial of lex.go: renders a line feed as a two-character
escape for error messages, any other rune as itself. -/
def escapeSpecial (c : Char) : String :=
  if c = '\n' then "\\n" else String.mk [c]

/-- next() of lex.go: at end of input record width 0 and return the
end-of-input sentinel (the rune 0); otherwise bump the line counter on a
line feed, consume one rune and record its width. -/
def Lexer.next (lx : Lexer) : Char × Lexer :=
  if lx.pos ≥ lx.input.length then ('\x00', { lx with width := 0 })
  else
    let c := lx.input.getD lx.pos '\x00'
    let lx := if c = '\n' then { lx with line := lx.line + 1 } else lx
    (c, { lx with pos := lx.pos + 1, width := 1 })

/-- backup() of lex.go: step back one rune, undoing the line bump if the
rune stepped over is a line feed. -/
def Lexer.backup (lx : Lexer) : Lexer :=
  let p := lx.pos - lx.width
  if p < lx.input.length ∧ lx.input.getD p '\x00' = '\n' then
    { lx with pos := p, line := lx.line - 1 }
  else
    { lx with pos := p }

/-- peek() of lex.go: next() immediately followed by backup(). -/
def Lexer.peek (lx : Lexer) : Char × Lexer :=
  let (r, lx) := lx.next
  (r, lx.backup)

/-- ignore() of lex.go: discard pending input. -/
def Lexer.ignore (lx : Lexer) : Lexer :=
  { lx with start := lx.pos }

/-- emit() of lex.go: the token text is the slice between the start mark
and the cursor; the start mark then resets to the cursor. -/
def Lexer.emit (lx : Lexer) (typ : itemType) : item × Lexer :=
  ({ typ := typ, val := String.mk ((lx.input.take lx.pos).drop lx.start), line := lx.line },
   { lx with start := lx.pos })

/-- pop() of lex.go: take the most recently pushed resume state; an empty
stack is an internal scanner bug reported as an error token. -/
def Lexer.popState (lx : Lexer) : Lexer × List item × Option LexState :=
  match lx.stack with
  | [] => (lx, [{ typ := .itemError, val := "BUG in lexer: no states to pop.", line := lx.line }], none)
  | s :: rest => ({ lx with stack := rest }, [], some s)

/-- errorf of lex.go: emit one error token carrying the message and stop
(the Go state function returns nil). -/
def errItem (lx : Lexer) (msg : String) : Lexer × List item × Option LexState :=
  (lx, [{ typ := .itemError, val := msg, line := lx.line }], none)

/-- One invocation of the current state function, translated case by case
from lex.go.  Returns the new cursor, the items emitted during the
invocation, and the next state (`none` after an error token or the EOF
token, where the Go function returns nil). -/
def lexStep : LexState → Lexer → Lexer × List item × Option LexState
  | .lexSkip s, lx => (lx.ignore, [], some s)
  | .lexTop, lx =>
    let (r, lx) := lx.next
    if isWhitespace r || isNL r then (lx, [], some (.lexSkip .lexTop))
    else if r == '#' then ({ lx with stack := .lexTop :: lx.stack }, [], some .lexCommentStart)
    else if r == '[' then
      let (it, lx) := lx.emit .itemKeyGroupStart
      (lx, [it], some .lexKeyGroupStart)
    else if r == '\x00' then
      if lx.pos > lx.start then errItem lx "Unexpected EOF."
      else
        let (it, lx) := lx.emit .itemEOF
        (lx, [it], none)
    else
      let lx := lx.backup
      ({ lx with stack := .lexTopValueEnd :: lx.stack }, [], some .lexKeyStart)
  | .lexTopValueEnd, lx =>
    let (r, lx) := lx.next
    if r == '#' then ({ lx with stack := .lexTop :: lx.stack }, [], some .lexCommentStart)
    else if isWhitespace r then (lx, [], some .lexTopValueEnd)
    else if isNL r then (lx.ignore, [], some .lexTop)
    else if r == '\x00' then (lx.ignore, [], some .lexTop)
    else errItem lx ("Expected a top-level value to end with a new line, comment or EOF, but got '" ++ escapeSpecial r ++ "' instead.")
  | .lexKeyGroupStart, lx =>
    let (r, lx) := lx.next
    if r == ']' then errItem lx "Unexpected end of key group. (Key groups cannot be empty.)"
    else if r == '.' then errItem lx "Unexpected key group separator. (Key groups cannot be empty.)"
    else (lx, [], some .lexKeyGroup)
  | .lexKeyGroup, lx =>
    let (r, lx) := lx.peek
    if r == ']' then
      let (it1, lx) := lx.emit .itemText
      let (_, lx) := lx.next
      let (it2, lx) := lx.emit .itemKeyGroupEnd
      (lx, [it1, it2], some .lexTop)
    else if r == '.' then
      let (it1, lx) := lx.emit .itemText
      let (_, lx) := lx.next
      (lx.ignore, [it1], some .lexKeyGroupStart)
    else
      let (_, lx) := lx.next
      (lx, [], some .lexKeyGroup)
  | .lexKeyStart, lx =>
    let (r, lx) := lx.peek
    if r == '=' then errItem lx "Unexpected key separator '='."
    else if isWhitespace r || isNL r then
      errItem lx ("Unexpected whitespace '" ++ escapeSpecial r ++ "' at start of key.")
    else
      let (it, lx) := lx.emit .itemKeyStart
      let (_, lx) := lx.next
      (lx, [it], some .lexKey)
  | .lexKey, lx =>
    let (r, lx) := lx.peek
    if isWhitespace r || isNL r then
      let (it, lx) := lx.emit .itemText
      (lx, [it], some .lexKeyEnd)
    else
      let (_, lx) := lx.next
      (lx, [], some .lexKey)
  | .lexKeyEnd, lx =>
    let (r, lx) := lx.next
    if isWhitespace r || isNL r then (lx, [], some (.lexSkip .lexKeyEnd))
    else if r == '=' then (lx, [], some .lexValue)
    else errItem lx ("Expected key separator '=', but got '" ++ escapeSpecial r ++ "' instead.")
  | .lexValue, lx =>
    let (r, lx) := lx.next
    if isWhitespace r then (lx, [], some (.lexSkip .lexValue))
    else if r == '"' then (lx.ignore, [], some .lexString)
    else if r == 't' then (lx, [], some .lexTrue)
    else if r == 'f' then (lx, [], some .lexFalse)
    else if r == '-' then (lx, [], some .lexNumberStart)
    else if isDigit r then (lx.backup, [], some .lexNumberStart)
    else if r == '.' then errItem lx "Floats must start with a digit, not '.'."
    else errItem lx ("Expected value but found '" ++ escapeSpecial r ++ "' instead.")
  | .lexString, lx =>
    let (r, lx) := lx.next
    if isNL r then errItem lx "Strings cannot contain new lines."
    else if r == '\\' then (lx, [], some .lexStringEscape)
    else if r == '"' then
      let lx := lx.backup
      let (it, lx) := lx.emit .itemString
      let (_, lx) := lx.next
      let lx := lx.ignore
      let (lx, its, st) := lx.popState
      (lx, it :: its, st)
    else (lx, [], some .lexString)
  | .lexStringEscape, lx =>
    let (r, lx) := lx.next
    if r == '0' || r == 't' || r == 'n' || r == 'r' || r == '"' || r == '\\' then
      (lx, [], some .lexString)
    else
      errItem lx ("Invalid escape character '" ++ escapeSpecial r ++ "'. Only the following escape characters are allowed: \\0, \\t, \\n, \\r, \\\", \\\\.")
  | .lexNumberStart, lx =>
    let (r, lx) := lx.next
    if isDigit r then (lx, [], some .lexNumber)
    else if r == '.' then errItem lx "Floats must start with a digit, not '.'."
    else errItem lx ("Expected a digit but got '" ++ escapeSpecial r ++ "'.")
  | .lexNumber, lx =>
    let (r, lx) := lx.next
    if isDigit r then (lx, [], some .lexNumber)
    else if r == '.' then (lx, [], some .lexFloatStart)
    else if isWhitespace r || isNL r then
      let lx := lx.backup
      let (it, lx) := lx.emit .itemInteger
      let (lx, its, st) := lx.popState
      (lx, it :: its, st)
    else errItem lx ("Expected a digit, '.' or the end of a value, but got '" ++ escapeSpecial r ++ "' instead.")
  | .lexFloatStart, lx =>
    let (r, lx) := lx.next
    if isDigit r then (lx, [], some .lexFloat)
    else errItem lx ("Floats must have a digit after the '.', but got '" ++ escapeSpecial r ++ "' instead.")
  | .lexFloat, lx =>
    let (r, lx) := lx.next
    if isDigit r then (lx, [], some .lexFloat)
    else if isWhitespace r || isNL r then
      let lx := lx.backup
      let (it, lx) := lx.emit .itemFloat
      let (lx, its, st) := lx.popState
      (lx, it :: its, st)
    else errItem lx ("Expected a digit or the end of a value, but got '" ++ escapeSpecial r ++ "' instead.")
  | .lexTrue, lx =>
    let (r1, lx) := lx.next
    if r1 != 'r' then errItem lx ("Expected 'tr', but found 't" ++ escapeSpecial r1 ++ "' instead.")
    else
      let (r2, lx) := lx.next
      if r2 != 'u' then errItem lx ("Expected 'tru', but found 'tr" ++ escapeSpecial r2 ++ "' instead.")
      else
        let (r3, lx) := lx.next
        if r3 != 'e' then errItem lx ("Expected 'true', but found 'tru" ++ escapeSpecial r3 ++ "' instead.")
        else
          let (it, lx) := lx.emit .itemBool
          let (lx, its, st) := lx.popState
          (lx, it :: its, st)
  | .lexFalse, lx =>
    let (r1, lx) := lx.next
    if r1 != 'a' then errItem lx ("Expected 'fa', but found 'f" ++ escapeSpecial r1 ++ "' instead.")
    else
      let (r2, lx) := lx.next
      if r2 != 'l' then errItem lx ("Expected 'fal', but found 'fa" ++ escapeSpecial r2 ++ "' instead.")
      else
        let (r3, lx) := lx.next
        if r3 != 's' then errItem lx ("Expected 'fals', but found 'fal" ++ escapeSpecial r3 ++ "' instead.")
        else
          let (r4, lx) := lx.next
          if r4 != 'e' then errItem lx ("Expected 'false', but found 'fals" ++ escapeSpecial r4 ++ "' instead.")
          else
            let (it, lx) := lx.emit .itemBool
            let (lx, its, st) := lx.popState
            (lx, it :: its, st)
  | .lexCommentStart, lx =>
    let lx := lx.ignore
    let (it, lx) := lx.emit .itemCommentStart
    (lx, [it], some .lexComment)
  | .lexComment, lx =>
    let (r, lx) := lx.peek
    if isNL r || r == '\x00' then
      let (it, lx) := lx.emit .itemText
      let (lx, its, st) := lx.popState
      (lx, it :: its, st)
    else
      let (_, lx) := lx.next
      (lx, [], some .lexComment)

/-- Token stream of a scanner run: iterate `lexStep` from a state,
collecting emitted items, for at most `fuel` state invocations.  A `none`
state means the scanner has stopped (after the EOF token or an error
token); nothing further is ever emitted. -/
def lexRun : Nat → Lexer → Option LexState → List item
  | 0, _, _ => []
  | _ + 1, _, none => []
  | n + 1, lx, some st =>
    let (lx2, items, st2) := lexStep st lx
    items ++ lexRun n lx2 st2

/-- lex() of lex.go: fresh cursor on line 1, initial state lexTop. -/
def lexInit (s : String) : Lexer :=
  { input := s.data, start := 0, pos := 0, width := 0, line := 1, stack := [] }

/-- Full token stream of an input, with the given fuel. -/
def lexTokens (fuel : Nat) (s : String) : List item :=
  lexRun fuel (lexInit s) (some .lexTop)

/-- Structural TOML types of type-check.go: the base kinds (carrying the
name string of the corresponding `tomlBaseType` value), the polymorphic
marker, arrays and tuples. -/
inductive tomlType where
  | base (s : String)
  | poly
  | arr (of : tomlType)
  | tuple (of : List tomlType)
deriving Repr

/-- polymorphic() of type-check.go: true only for the polymorphic marker. -/
def polymorphic : tomlType → Bool
  | .poly => true
  | _ => false

/-- name() of type-check.go: the base name of a type. -/
def typeName : tomlType → String
  | .base s => s
  | .poly => "a"
  | .arr _ => "Array"
  | .tuple _ => "Tuple"

/-- components() of type-check.go: the component-type list of a type. -/
def components : tomlType → List tomlType
  | .base _ => []
  | .poly => []
  | .arr t => [t]
  | .tuple ts => ts

mutual

/-- Termination measure for the recursive type-equality and printing
functions (a size under which a type is larger than each of its
components and than its component list). -/
def tsize : tomlType → Nat
  | .base _ => 1
  | .poly => 1
  | .arr t => 2 + tsize t
  | .tuple ts => 1 + lsize ts

/-- List companion of `tsize`. -/
def lsize : List tomlType → Nat
  | [] => 0
  | t :: ts => 1 + tsize t + lsize ts

end

theorem lsize_components_lt (t : tomlType) : lsize (components t) < tsize t := by
  cases t <;> simp only [components, tsize, lsize] <;> omega

mutual

/-- typeEqual of type-check.go: two types are equal if either is
polymorphic, or their names agree and their component lists are equal
length and pairwise equal under the same rule.  The Go loop first
compares lengths and then the members left to right; the member-wise
helper below computes the same boolean. -/
def typeEqual (t1 t2 : tomlType) : Bool :=
  if polymorphic t1 || polymorphic t2 then true
  else if typeName t1 != typeName t2 then false
  else typeEqualComps (components t1) (components t2)
termination_by tsize t1
decreasing_by exact lsize_components_lt t1

/-- Member-wise companion of `typeEqual` (the indexed loop of the Go
code, fused with its length check). -/
def typeEqualComps : List tomlType → List tomlType → Bool
  | [], [] => true
  | c1 :: cs1, c2 :: cs2 => typeEqual c1 c2 && typeEqualComps cs1 cs2
  | [], _ :: _ => false
  | _ :: _, [] => false
termination_by l1 _ => lsize l1
decreasing_by
  all_goals simp only [lsize]
  all_goals omega

end

mutual

/-- String() of the tomlType implementations in type-check.go: base types
print their name, the polymorphic marker prints "a", arrays bracket their
component type, tuples parenthesize a comma-joined component list. -/
def typeString : tomlType → String
  | .base s => s
  | .poly => "a"
  | .arr t => "[" ++ typeString t ++ "]"
  | .tuple ts => "(" ++ String.intercalate ", " (typeStringList ts) ++ ")"
termination_by t => tsize t
decreasing_by
  all_goals simp only [tsize, lsize]
  all_goals omega

/-- List companion of `typeString`. -/
def typeStringList : List tomlType → List String
  | [] => []
  | t :: ts => typeString t :: typeStringList ts
termination_by ts => lsize ts
decreasing_by
  all_goals simp only [tsize, lsize]
  all_goals omega

end

/-- The named basic types of type-check.go. -/
def tomlInteger : tomlType := .base "Integer"

def tomlFloat : tomlType := .base "Float"

def tomlDatetime : tomlType := .base "Datetime"

def tomlString : tomlType := .base "String"

def tomlBool : tomlType := .base "Bool"

def tomlHash : tomlType := .base "Hash"

def tomlPolymorphic : tomlType := .poly

/-- Error outcomes of the parser embedding.  `err` is a user-facing
parse error (Go: panic with a parseError, recovered by parse); `bug` is
an internal-invariant abort (Go: p.bug, log.Fatalf); `fuel` is an
artifact of the embedding (recursion fuel exhausted, or reading past the
end of the modelled token list) and is never a successful outcome. -/
inductive PErr where
  | err (msg : String)
  | bug (msg : String)
  | fuel
deriving Repr, DecidableEq

/-- Message raised by typeOfArray on the first heterogeneous pair. -/
def arrayMismatchMsg (t u : tomlType) : String :=
  "Array contains values of type '" ++ typeString t ++ "' and '" ++ typeString u ++
    "', but arrays must be homogeneous."

/-- Loop of typeOfArray in type-check.go: compare every later element
type, left to right, against the candidate; the first mismatching pair
raises the homogeneity error. -/
def typeOfArrayLoop (theType : tomlType) : List tomlType → Except PErr tomlType
  | [] => .ok (.arr theType)
  | t :: ts =>
    if typeEqual theType t then typeOfArrayLoop theType ts
    else .error (.err (arrayMismatchMsg theType t))

/-- typeOfArray of type-check.go: an empty list yields the polymorphic
array type, otherwise the first element's type is the candidate. -/
def typeOfArray (types : List tomlType) : Except PErr tomlType :=
  match types with
  | [] => .ok (.arr .poly)
  | theType :: rest => typeOfArrayLoop theType rest

/-- typeOfPrimitive of type-check.go: any item kind outside the five
primitive kinds is an internal-invariant abort. -/
def typeOfPrimitive (it : item) : Except PErr tomlType :=
  match it.typ with
  | .itemInteger => .ok tomlInteger
  | .itemFloat => .ok tomlFloat
  | .itemDatetime => .ok tomlDatetime
  | .itemString => .ok tomlString
  | .itemBool => .ok tomlBool
  | _ => .error (.bug "Cannot infer primitive type of lex item.")

/-- Lookup in a Go map modelled as an association list (first binding
wins; lists built with `assocSet` never hold two bindings of one key). -/
def assocGet {α : Type} : List (String × α) → String → Option α
  | [], _ => none
  | (k, v) :: rest, key => if k = key then some v else assocGet rest key

/-- Update of the Go-map model: replace the binding if the key is
present, otherwise append a new binding. -/
def assocSet {α : Type} : List (String × α) → String → α → List (String × α)
  | [], key, v => [(key, v)]
  | (k, w) :: rest, key, v =>
    if k = key then (k, v) :: rest else (k, w) :: assocSet rest key v

/-- Modelled from the spec: the `Key` type's String method is declared
outside these sources (only parse.go's uses of `Key`, `Key.add` and
`Key.String` are present).  Per the spec, key paths print as their
segments joined with dots (for example `fruit.physical.color`), which is
the form under which the parser indexes its per-path type record and its
implicit-table set. -/
def keyString (k : List String) : String :=
  String.intercalate "." k

/-- Document values: the tagged union a parse produces.  Tables are Go
maps of string segment to value, in the association-list model.  Floats
and datetimes keep their literal text: IEEE-754 decoding
(strconv.ParseFloat) and calendar validation (time.Parse) are outside
this embedding, and no claim exercises them. -/
inductive tomlValue where
  | str (s : String)
  | int (n : Int)
  | float (raw : String)
  | bool (b : Bool)
  | datetime (raw : String)
  | arr (vs : List tomlValue)
  | table (entries : List (String × tomlValue))
deriving Repr

/-- Parser state (struct `parser` of parse.go): root mapping, per-path
type record, ordered key-path list, current context, and the
implicitly-created set.  The type record and the implicit set are keyed
by the dot-joined path string, as in the Go code.  The lexer handle,
`currentKey` and `approxLine` (used only to format message prefixes) are
not carried. -/
structure PState where
  mapping : List (String × tomlValue)
  types : List (String × tomlType)
  ordered : List (List String)
  context : List String
  implicits : List (String × Bool)
deriving Repr

/-- Fresh parser state, as built by parse() of parse.go. -/
def initPState : PState :=
  { mapping := [], types := [], ordered := [], context := [], implicits := [] }

/-- isImplicit of parse.go (a missing entry reads as false, like a Go
map of bool). -/
def isImplicitIn (impl : List (String × Bool)) (key : List String) : Bool :=
  (assocGet impl (keyString key)).getD false

/-- Recursive core of setValue of parse.go: walk the current context
path down the nested tables (a missing or non-table step is an
internal-invariant abort), then apply the duplicate/implicit check at
the target table.  The Go code mutates the nested map in place; here the
spine is rebuilt with the updated subtable. -/
def setValueAux (impl : List (String × Bool)) (path : List String)
    (es : List (String × tomlValue)) :
    List String → String → tomlValue → Except PErr (List (String × tomlValue) × List (String × Bool))
  | [], key, v =>
    match assocGet es key with
    | some _ =>
      if isImplicitIn impl (path ++ [key]) then
        .ok (es, assocSet impl (keyString (path ++ [key])) false)
      else
        .error (.err ("Key '" ++ keyString (path ++ [key]) ++ "' has already been defined."))
    | none => .ok (assocSet es key v, impl)
  | k :: ks, key, v =>
    match assocGet es k with
    | none =>
      .error (.bug ("Context for key '" ++ keyString (path ++ [k]) ++ "' has not been established."))
    | some (tomlValue.table sub) =>
      match setValueAux impl (path ++ [k]) sub ks key v with
      | .ok (sub2, impl2) => .ok (assocSet es k (tomlValue.table sub2), impl2)
      | .error e => .error e
    | some _ =>
      .error (.bug "Expected hash to have type 'map[string]interface{}', but it has another type instead.")

/-- setValue of parse.go: set `key` to `value` in the current context,
detecting duplicates and accounting for implicit key groups. -/
def setValue (st : PState) (key : String) (v : tomlValue) : Except PErr PState :=
  match setValueAux st.implicits [] st.mapping st.context key v with
  | .ok (m2, impl2) => .ok { st with mapping := m2, implicits := impl2 }
  | .error e => .error e

/-- Walk of establishContext of parse.go over the leading segments of a
header path: a missing segment is created as an empty table and its path
marked implicit; a present non-table segment is a user-facing error; the
Go code's in-place map mutation is again a rebuilt spine. -/
def establishAux (impl : List (String × Bool)) (path : List String)
    (es : List (String × tomlValue)) :
    List String → Except PErr (List (String × tomlValue) × List (String × Bool))
  | [] => .ok (es, impl)
  | k :: ks =>
    match assocGet es k with
    | none =>
      match establishAux (assocSet impl (keyString (path ++ [k])) true) (path ++ [k]) [] ks with
      | .ok (sub2, impl2) => .ok (assocSet es k (tomlValue.table sub2), impl2)
      | .error e => .error e
    | some (tomlValue.table sub) =>
      match establishAux impl (path ++ [k]) sub ks with
      | .ok (sub2, impl2) => .ok (assocSet es k (tomlValue.table sub2), impl2)
      | .error e => .error e
    | some _ =>
      .error (.err ("Key '" ++ keyString (path ++ [k]) ++ "' was already created as a hash."))

/-- Split a path into its leading segments `key[0:len-1]` and its final
segment `key[len-1]` (none for the empty path, which would make the Go
indexing panic; the parser never produces it). -/
def splitLast : List String → Option (List String × String)
  | [] => none
  | a :: rest =>
    match splitLast rest with
    | none => some ([], a)
    | some (p, l) => some (a :: p, l)

theorem splitLast_eq : ∀ (l p : List String) (a : String),
    splitLast l = some (p, a) → l = p ++ [a] := by
  intro l
  induction l with
  | nil => intro p a h; simp [splitLast] at h
  | cons x rest ih =>
    intro p a h
    cases hr : splitLast rest with
    | none =>
      rw [splitLast, hr] at h
      cases rest with
      | nil =>
        simp at h
        simp [← h.1, ← h.2]
      | cons y t =>
        exfalso
        rw [splitLast] at hr
        cases h2 : splitLast t with
        | none => rw [h2] at hr; simp at hr
        | some pl => rw [h2] at hr; obtain ⟨p2, l2⟩ := pl; simp at hr
    | some pl =>
      obtain ⟨p2, l2⟩ := pl
      rw [splitLast, hr] at h
      simp at h
      rw [ih p2 l2 hr, h.2, ← h.1]
      simp

/-- establishContext of parse.go: create implicit tables for all leading
segments, then setValue the final segment as an empty table under the
parent context and make the full path the current context.  The parser
only ever calls this with a nonempty header path (the scanner cannot
produce an empty key group), so the empty case is an unreachable abort. -/
def establishContext (st : PState) (key : List String) : Except PErr PState :=
  match splitLast key with
  | none => .error (.bug "establishContext on an empty key group.")
  | some (parents, last) =>
    match establishAux st.implicits [] st.mapping parents with
    | .error e => .error e
    | .ok (m2, impl2) =>
      let st2 := { st with mapping := m2, implicits := impl2, context := parents }
      match setValue st2 last (tomlValue.table []) with
      | .error e => .error e
      | .ok st3 => .ok { st3 with context := parents ++ [last] }

/-- setType of parse.go: record the inferred type under the dot-joined
full key (the context, extended by the key when nonempty); a type
already recorded there is an internal-invariant abort. -/
def setType (st : PState) (key : String) (typ : tomlType) : Except PErr PState :=
  let keyCtx := if key.length > 0 then st.context ++ [key] else st.context
  let fullkey := keyString keyCtx
  match assocGet st.types fullkey with
  | some _ =>
    .error (.bug ("Type for key '" ++ fullkey ++ "' has already been set, but it wasn't detected as a duplicate in setValue."))
  | none => .ok { st with types := assocSet st.types fullkey typ }

/-- Outcomes of the Go standard library's numeric conversions: a range
overflow or a malformed literal. -/
inductive GoNumErr where
  | rangeErr
  | synErr
deriving Repr, DecidableEq

/-- Value of a nonempty all-digit run, none otherwise. -/
def digitsToNat : List Char → Option Nat
  | [] => none
  | cs =>
    cs.foldl
      (fun acc c =>
        acc.bind fun n => if isDigit c then some (10 * n + (c.toNat - '0'.toNat)) else none)
      (some 0)

/-- Go strconv.ParseInt with base 10 and bit size 64 (standard library,
modelled): an optional sign followed by at least one digit, rejected
with a range error when the value leaves the signed 64-bit range. -/
def goParseInt (s : String) : Except GoNumErr Int :=
  match s.data with
  | [] => .error .synErr
  | c :: rest =>
    if c = '-' then
      match digitsToNat rest with
      | none => .error .synErr
      | some n => if n > 2 ^ 63 then .error .rangeErr else .ok (-(n : Int))
    else if c = '+' then
      match digitsToNat rest with
      | none => .error .synErr
      | some n => if n ≥ 2 ^ 63 then .error .rangeErr else .ok (n : Int)
    else
      match digitsToNat (c :: rest) with
      | none => .error .synErr
      | some n => if n ≥ 2 ^ 63 then .error .rangeErr else .ok (n : Int)

/-- Value of a nonempty run of hexadecimal digits, none otherwise. -/
def hexToNat : List Char → Option Nat
  | [] => none
  | cs =>
    cs.foldl
      (fun acc c =>
        acc.bind fun n =>
          if isDigit c then some (16 * n + (c.toNat - '0'.toNat))
          else if 'a' ≤ c ∧ c ≤ 'f' then some (16 * n + (c.toNat - 'a'.toNat + 10))
          else if 'A' ≤ c ∧ c ≤ 'F' then some (16 * n + (c.toNat - 'A'.toNat + 10))
          else none)
      (some 0)

/-- Rune-to-character conversion as Go's string conversion performs it:
an invalid code point becomes the replacement character.  (parse.go's
asciiEscapeToUnicode validity check can never fire, as its own comment
observes, because this conversion never yields an invalid rune.) -/
def charOfCodepoint (n : Nat) : Char :=
  if n.isValidChar then Char.ofNat n else '�'

/-- asciiEscapeToUnicode of parse.go: hex digits to a code point; a
non-hex run is an internal-invariant abort (the scanner vouched for
them). -/
def asciiEscapeToUnicode (cs : List Char) : Except PErr Char :=
  match hexToNat cs with
  | none => .error (.bug "Could not parse the escape as a hexadecimal number, but the lexer claims it's OK.")
  | some n => .ok (charOfCodepoint n)

/-- replaceEscapes of parse.go: expand backslash escapes in a string
body.  The recognized escape codes are b, t, n, f, r, double quote,
backslash, and the 4- and 8-digit Unicode forms (whose digit runs the Go
code slices as s[r+1:r+5] and s[r+1:r+9], here matched as four or eight
explicit characters); anything else after a backslash is an
internal-invariant abort (p.bug), as is a backslash ending the string.
A Unicode escape shorter than its advertised digit count would make the
Go slice out of bounds (a runtime abort), modelled as a bug outcome. -/
def replaceEscapes : List Char → Except PErr (List Char)
  | [] => .ok []
  | ['\\'] => .error (.bug "Escape sequence at end of string.")
  | '\\' :: 'b' :: rest =>
    match replaceEscapes rest with
    | .ok cs => .ok (Char.ofNat 0x08 :: cs)
    | .error er => .error er
  | '\\' :: 't' :: rest =>
    match replaceEscapes rest with
    | .ok cs => .ok (Char.ofNat 0x09 :: cs)
    | .error er => .error er
  | '\\' :: 'n' :: rest =>
    match replaceEscapes rest with
    | .ok cs => .ok (Char.ofNat 0x0A :: cs)
    | .error er => .error er
  | '\\' :: 'f' :: rest =>
    match replaceEscapes rest with
    | .ok cs => .ok (Char.ofNat 0x0C :: cs)
    | .error er => .error er
  | '\\' :: 'r' :: rest =>
    match replaceEscapes rest with
    | .ok cs => .ok (Char.ofNat 0x0D :: cs)
    | .error er => .error er
  | '\\' :: '"' :: rest =>
    match replaceEscapes rest with
    | .ok cs => .ok (Char.ofNat 0x22 :: cs)
    | .error er => .error er
  | '\\' :: '\\' :: rest =>
    match replaceEscapes rest with
    | .ok cs => .ok (Char.ofNat 0x5C :: cs)
    | .error er => .error er
  | '\\' :: 'u' :: a :: b :: c :: d :: rest =>
    match asciiEscapeToUnicode [a, b, c, d] with
    | .error er => .error er
    | .ok ch =>
      match replaceEscapes rest with
      | .ok cs => .ok (ch :: cs)
      | .error er => .error er
  | '\\' :: 'u' :: _ => .error (.bug "slice bounds out of range in a Unicode escape.")
  | '\\' :: 'U' :: a :: b :: c :: d :: e5 :: f6 :: g7 :: h8 :: rest =>
    match asciiEscapeToUnicode [a, b, c, d, e5, f6, g7, h8] with
    | .error er => .error er
    | .ok ch =>
      match replaceEscapes rest with
      | .ok cs => .ok (ch :: cs)
      | .error er => .error er
  | '\\' :: 'U' :: _ => .error (.bug "slice bounds out of range in a Unicode escape.")
  | '\\' :: e :: _ =>
    .error (.bug ("Expected valid escape code after \\, but got '" ++ String.mk [e] ++ "'."))
  | c :: rest =>
    match replaceEscapes rest with
    | .ok cs => .ok (c :: cs)
    | .error er => .error er

/-- p.next of parse.go over the modelled token list: an error token is
re-raised as the user-facing parse error (panic with a parseError; the
Near-line prefix p.panic adds is not carried).  An exhausted list stands
for a scanner that never delivers another item, a state the finite
streams of a real run never reach; it maps to the fuel artifact. -/
def pnext : List item → Except PErr (item × List item)
  | [] => .error .fuel
  | it :: rest =>
    if it.typ = .itemError then .error (.err it.val) else .ok (it, rest)

/-- Shape check for the fixed datetime profile `YYYY-MM-DDTHH:MM:SSZ`
(Go time.Parse with that layout, standard library, modelled; calendar
range validation is not reproduced and no claim exercises it). -/
def zuluShape (s : String) : Bool :=
  match s.data with
  | [y1, y2, y3, y4, '-', m1, m2, '-', d1, d2, 'T', h1, h2, ':', n1, n2, ':', s1, s2, 'Z'] =>
    isDigit y1 && isDigit y2 && isDigit y3 && isDigit y4 && isDigit m1 && isDigit m2 &&
      isDigit d1 && isDigit d2 && isDigit h1 && isDigit h2 && isDigit n1 && isDigit n2 &&
      isDigit s1 && isDigit s2
  | _ => false

mutual

/-- value of parse.go: translate one value-bearing token (pulling
further tokens for arrays) into a document value and its structural
type, returning the unconsumed remainder of the token list.  Fuel bounds
the recursion depth; running out is the fuel artifact, never success. -/
def pvalue : Nat → item → List item → Except PErr (tomlValue × tomlType × List item)
  | 0, _, _ => .error .fuel
  | fuel + 1, it, toks =>
    match it.typ with
    | .itemString =>
      match replaceEscapes it.val.data with
      | .error e => .error e
      | .ok cs =>
        match typeOfPrimitive it with
        | .error e => .error e
        | .ok t => .ok (.str (String.mk cs), t, toks)
    | .itemRawString =>
      match typeOfPrimitive it with
      | .error e => .error e
      | .ok t => .ok (.str it.val, t, toks)
    | .itemBool =>
      if it.val = "true" then
        match typeOfPrimitive it with
        | .error e => .error e
        | .ok t => .ok (.bool true, t, toks)
      else if it.val = "false" then
        match typeOfPrimitive it with
        | .error e => .error e
        | .ok t => .ok (.bool false, t, toks)
      else .error (.bug ("Expected boolean value, but got '" ++ it.val ++ "'."))
    | .itemInteger =>
      match goParseInt it.val with
      | .ok num =>
        match typeOfPrimitive it with
        | .error e => .error e
        | .ok t => .ok (.int num, t, toks)
      | .error .rangeErr =>
        .error (.err ("Integer '" ++ it.val ++ "' is out of the range of 64-bit signed integers."))
      | .error .synErr =>
        .error (.bug ("Expected integer value, but got '" ++ it.val ++ "'."))
    | .itemFloat =>
      match typeOfPrimitive it with
      | .error e => .error e
      | .ok t => .ok (.float it.val, t, toks)
    | .itemDatetime =>
      if zuluShape it.val then
        match typeOfPrimitive it with
        | .error e => .error e
        | .ok t => .ok (.datetime it.val, t, toks)
      else .error (.bug ("Expected Zulu formatted DateTime, but got '" ++ it.val ++ "'."))
    | .itemArray =>
      match pvalueArr fuel toks [] [] with
      | .error e => .error e
      | .ok (vs, ts, rest) =>
        match typeOfArray ts with
        | .error e => .error e
        | .ok t => .ok (.arr vs, t, rest)
    | _ => .error (.bug "Unexpected value type.")

/-- Array-element loop of value of parse.go: pull tokens until the
array-end token, skipping comments, decoding each element and collecting
values and types in order. -/
def pvalueArr : Nat → List item → List tomlValue → List tomlType →
    Except PErr (List tomlValue × List tomlType × List item)
  | 0, _, _, _ => .error .fuel
  | fuel + 1, toks, accV, accT =>
    match pnext toks with
    | .error e => .error e
    | .ok (it, rest) =>
      if it.typ = .itemArrayEnd then .ok (accV, accT, rest)
      else if it.typ = .itemCommentStart then
        match pnext rest with
        | .error e => .error e
        | .ok (it2, rest2) =>
          if it2.typ = .itemText then pvalueArr fuel rest2 accV accT
          else .error (.bug "Expected 'Text' after a comment marker.")
      else
        match pvalue fuel it rest with
        | .error e => .error e
        | .ok (v, t, rest2) => pvalueArr fuel rest2 (accV ++ [v]) (accT ++ [t])

end

/-- Segment-collecting loop of the key-group branch of topLevel of
parse.go, entered after the first (already checked) text segment: keep
appending text segments; the loop leaves on the first non-text token,
which must be the key-group-end token.  (p.next is inlined so the
recursion is structural.) -/
def keyGroupLoop : List item → List String → Except PErr (List String × List item)
  | [], _ => .error .fuel
  | it :: rest, acc =>
    if it.typ = .itemError then .error (.err it.val)
    else if it.typ = .itemText then keyGroupLoop rest (acc ++ [it.val])
    else if it.typ = .itemKeyGroupEnd then .ok (acc, rest)
    else .error (.bug "Expected 'KeyGroupEnd', but got another item type.")

/-- topLevel of parse.go, for one dispatched item: a comment swallows its
text; a key-group header collects its segments, establishes the context,
records the Hash type and appends the header path to the ordered list; a
key start reads the key name and its value, stores it, records its type
and appends the full path to the ordered list. -/
def topLevelStep (fuel : Nat) (st : PState) (it : item) (toks : List item) :
    Except PErr (PState × List item) :=
  match it.typ with
  | .itemCommentStart =>
    match pnext toks with
    | .error e => .error e
    | .ok (t, rest) =>
      if t.typ = .itemText then .ok (st, rest)
      else .error (.bug "Expected 'Text', but got another item type.")
  | .itemKeyGroupStart =>
    match pnext toks with
    | .error e => .error e
    | .ok (kg, rest) =>
      if kg.typ = .itemText then
        match keyGroupLoop rest [kg.val] with
        | .error e => .error e
        | .ok (key, rest2) =>
          match establishContext st key with
          | .error e => .error e
          | .ok st2 =>
            match setType st2 "" tomlHash with
            | .error e => .error e
            | .ok st3 => .ok ({ st3 with ordered := st3.ordered ++ [key] }, rest2)
      else .error (.bug "Expected 'Text', but got another item type.")
  | .itemKeyStart =>
    match pnext toks with
    | .error e => .error e
    | .ok (kname, rest) =>
      if kname.typ = .itemText then
        match pnext rest with
        | .error e => .error e
        | .ok (vit, rest2) =>
          match pvalue fuel vit rest2 with
          | .error e => .error e
          | .ok (v, typ, rest3) =>
            match setValue st kname.val v with
            | .error e => .error e
            | .ok st2 =>
              match setType st2 kname.val typ with
              | .error e => .error e
              | .ok st3 =>
                .ok ({ st3 with ordered := st3.ordered ++ [st3.context ++ [kname.val]] }, rest3)
      else .error (.bug "Expected 'Text', but got another item type.")
  | _ => .error (.bug "Unexpected type at top level.")

/-- Main loop of parse of parse.go: pull one item at a time, stop
successfully at the EOF token, dispatch everything else to topLevel. -/
def parseItems : Nat → PState → List item → Except PErr PState
  | 0, _, _ => .error .fuel
  | fuel + 1, st, toks =>
    match pnext toks with
    | .error e => .error e
    | .ok (it, rest) =>
      if it.typ = .itemEOF then .ok st
      else
        match topLevelStep fuel st it rest with
        | .error e => .error e
        | .ok (st2, rest2) => parseItems fuel st2 rest2

/-- Run of the parser from the fresh state over a token list. -/
def parseTokens (fuel : Nat) (toks : List item) : Except PErr PState :=
  parseItems fuel initPState toks

/-- Resolve a context path through nested tables (the walk that the Go
setValue performs before its duplicate check), used to phrase
hypotheses about states whose context has been established. -/
def walkTable : List (String × tomlValue) → List String → Option (List (String × tomlValue))
  | es, [] => some es
  | es, k :: ks =>
    match assocGet es k with
    | some (tomlValue.table sub) => walkTable sub ks
    | _ => none

theorem typeEqualComps_iff (l1 l2 : List tomlType) :
    typeEqualComps l1 l2 = true ↔
      List.Forall₂ (fun a b => typeEqual a b = true) l1 l2 := by
  induction l1 generalizing l2 with
  | nil => cases l2 <;> simp [typeEqualComps]
  | cons c cs ih => cases l2 <;> simp [typeEqualComps, ih]

theorem typeOfArrayLoop_ok (ts : List tomlType) (t : tomlType)
    (h : ∀ u ∈ ts, typeEqual t u = true) : typeOfArrayLoop t ts = .ok (.arr t) := by
  induction ts with
  | nil => rfl
  | cons u us ih =>
    rw [typeOfArrayLoop]
    rw [h u (by simp)]
    simp only [if_true]
    exact ih fun w hw => h w (by simp [hw])

theorem typeOfArrayLoop_err (t u : tomlType) (ts1 ts2 : List tomlType)
    (h : ∀ w ∈ ts1, typeEqual t w = true) (hu : typeEqual t u = false) :
    typeOfArrayLoop t (ts1 ++ u :: ts2) = .error (.err (arrayMismatchMsg t u)) := by
  induction ts1 with
  | nil => simp [typeOfArrayLoop, hu]
  | cons w ws ih =>
    rw [List.cons_append, typeOfArrayLoop, h w (by simp)]
    simp only [if_true]
    exact ih fun x hx => h x (by simp [hx])

/-- C7: two structural types are equal iff either is the Polymorphic
marker, or they share a base name and their component-type lists are
pairwise equal under the same rule (List.Forall₂ carries the equal-length
requirement); unifying an empty element-type list yields
Array-of(Polymorphic); otherwise the first element's type is the
candidate, a list whose later members all equal the candidate unifies to
an array of it, and the first non-equal member (after any run of equal
ones) raises the homogeneity error naming the candidate's and the
offender's printed type names. -/
theorem claim7_type_equality_and_unification :
    (∀ t1 t2 : tomlType,
      typeEqual t1 t2 = true ↔
        (polymorphic t1 = true ∨ polymorphic t2 = true ∨
          (typeName t1 = typeName t2 ∧
            List.Forall₂ (fun a b => typeEqual a b = true) (components t1) (components t2)))) ∧
    typeOfArray [] = .ok (.arr .poly) ∧
    (∀ (t : tomlType) (ts : List tomlType),
      (∀ u ∈ ts, typeEqual t u = true) → typeOfArray (t :: ts) = .ok (.arr t)) ∧
    (∀ (t u : tomlType) (ts1 ts2 : List tomlType),
      (∀ w ∈ ts1, typeEqual t w = true) → typeEqual t u = false →
      typeOfArray (t :: (ts1 ++ u :: ts2)) = .error (.err (arrayMismatchMsg t u))) := by
  refine ⟨?_, rfl, ?_, ?_⟩
  · intro t1 t2
    rw [typeEqual]
    by_cases h1 : polymorphic t1 = true
    · simp [h1]
    · by_cases h2 : polymorphic t2 = true
      · simp [h1, h2]
      · rw [Bool.not_eq_true] at h1 h2
        by_cases hn : typeName t1 = typeName t2
        · simp [h1, h2, hn, typeEqualComps_iff]
        · simp [h1, h2, hn]
  · intro t ts h
    exact typeOfArrayLoop_ok ts t h
  · intro t u ts1 ts2 h hu
    exact typeOfArrayLoop_err t u ts1 ts2 h hu

/-- Witness for C7 at concrete inputs: an all-Integer list unifies to an
Integer array and an Integer/String list raises the mismatch error. -/
theorem claim7_witness :
    typeOfArray [tomlInteger, tomlInteger] = .ok (.arr tomlInteger) ∧
    typeOfArray [tomlInteger, tomlString] = .error (.err (arrayMismatchMsg tomlInteger tomlString)) := by
  constructor
  · apply claim7_type_equality_and_unification.2.2.1
    intro u hu
    simp only [List.mem_singleton] at hu
    subst hu
    simp [typeEqual, polymorphic, typeName, components, typeEqualComps, tomlInteger]
  · have h := claim7_type_equality_and_unification.2.2.2 tomlInteger tomlString [] []
      (by intro w hw; simp at hw)
      (by simp [typeEqual, polymorphic, typeName, components, tomlInteger, tomlString])
    simpa using h

theorem typeEqual_base_refl (s : String) : typeEqual (.base s) (.base s) = true := by
  rw [typeEqual]
  simp [polymorphic, typeName, components, typeEqualComps]

theorem typeEqual_int_str_false : typeEqual tomlInteger tomlString = false := by
  rw [typeEqual]
  simp [polymorphic, typeName, components, tomlInteger, tomlString]

theorem typeString_base (s : String) : typeString (.base s) = s := by
  rw [typeString]

theorem typeOfArray_int3 :
    typeOfArray [tomlInteger, tomlInteger, tomlInteger] = .ok (.arr tomlInteger) :=
  typeOfArrayLoop_ok [tomlInteger, tomlInteger] tomlInteger
    (by intro u hu; simp at hu; subst hu; exact typeEqual_base_refl "Integer")

theorem typeOfArray_int_str :
    typeOfArray [tomlInteger, tomlString] =
      .error (.err "Array contains values of type 'Integer' and 'String', but arrays must be homogeneous.") := by
  have h := typeOfArrayLoop_err tomlInteger tomlString [] []
    (by intro w hw; simp at hw) typeEqual_int_str_false
  have h2 : typeOfArray [tomlInteger, tomlString] =
      .error (.err (arrayMismatchMsg tomlInteger tomlString)) := h
  rw [h2]
  simp only [arrayMismatchMsg, tomlInteger, tomlString, typeString_base]
  rfl

/-- Modelled from the spec: the scanner states that lex array values are
absent from lex.go (its lexValue dispatches on strings, booleans,
numbers and the friendly float error, but has no case for the array-open
bracket), while parse.go's value decoder consumes their output and even
references the itemRawString kind of that missing generation.  Per spec
sections 4.1 and 6, a bracketed value yields an array token followed by
the element value tokens (the commas and layout are consumed by the
scanner) and an array-end token. -/
def arrayValueStream (elems : List item) : item × List item :=
  ({ typ := .itemArray, val := "[", line := 1 },
   elems ++ [{ typ := .itemArrayEnd, val := "]", line := 1 }])

/-- C1: the value token stream of `[]` decodes to the empty array typed
Array-of(Polymorphic); that of `[1,2,3]` decodes to the three-integer
array typed Array-of(Integer); that of `[1,"a"]` fails with the
homogeneity error naming the types Integer and String. -/
theorem claim1_array_decoding :
    pvalue 10 (arrayValueStream []).1 (arrayValueStream []).2 =
      .ok (.arr [], .arr .poly, []) ∧
    pvalue 10 (arrayValueStream [⟨.itemInteger, "1", 1⟩, ⟨.itemInteger, "2", 1⟩, ⟨.itemInteger, "3", 1⟩]).1
        (arrayValueStream [⟨.itemInteger, "1", 1⟩, ⟨.itemInteger, "2", 1⟩, ⟨.itemInteger, "3", 1⟩]).2 =
      .ok (.arr [.int 1, .int 2, .int 3], .arr tomlInteger, []) ∧
    pvalue 10 (arrayValueStream [⟨.itemInteger, "1", 1⟩, ⟨.itemString, "a", 1⟩]).1
        (arrayValueStream [⟨.itemInteger, "1", 1⟩, ⟨.itemString, "a", 1⟩]).2 =
      .error (.err "Array contains values of type 'Integer' and 'String', but arrays must be homogeneous.") := by
  refine ⟨rfl, ?_, ?_⟩
  · calc
      pvalue 10 (arrayValueStream [⟨.itemInteger, "1", 1⟩, ⟨.itemInteger, "2", 1⟩, ⟨.itemInteger, "3", 1⟩]).1
          (arrayValueStream [⟨.itemInteger, "1", 1⟩, ⟨.itemInteger, "2", 1⟩, ⟨.itemInteger, "3", 1⟩]).2 =
        (match typeOfArray [tomlInteger, tomlInteger, tomlInteger] with
          | .error e => .error e
          | .ok t => .ok (.arr [.int 1, .int 2, .int 3], t, [])) := rfl
      _ = .ok (.arr [.int 1, .int 2, .int 3], .arr tomlInteger, []) := by
        rw [typeOfArray_int3]
  · calc
      pvalue 10 (arrayValueStream [⟨.itemInteger, "1", 1⟩, ⟨.itemString, "a", 1⟩]).1
          (arrayValueStream [⟨.itemInteger, "1", 1⟩, ⟨.itemString, "a", 1⟩]).2 =
        (match typeOfArray [tomlInteger, tomlString] with
          | .error e => .error e
          | .ok t => .ok (.arr [.int 1, .str "a"], t, [])) := rfl
      _ = .error (.err "Array contains values of type 'Integer' and 'String', but arrays must be homogeneous.") := by
        rw [typeOfArray_int_str]

/-- C5: integer tokens decode through a signed 64-bit parse: every
successful parse lies in the signed 64-bit range; the maximum value
9223372036854775807 decodes to itself, and 9223372036854775808 is
rejected with the distinct out-of-range parse error (a user-facing
error, not the internal-invariant abort reserved for scanner/parser
mismatches). -/
theorem claim5_integer_range :
    (∀ (s : String) (n : Int), goParseInt s = .ok n → -(2 ^ 63) ≤ n ∧ n < 2 ^ 63) ∧
    pvalue 1 { typ := .itemInteger, val := "9223372036854775807", line := 1 } [] =
      .ok (.int 9223372036854775807, tomlInteger, []) ∧
    pvalue 1 { typ := .itemInteger, val := "9223372036854775808", line := 1 } [] =
      .error (.err "Integer '9223372036854775808' is out of the range of 64-bit signed integers.") := by
  refine ⟨?_, rfl, rfl⟩
  intro s n h
  unfold goParseInt at h
  split at h
  · simp at h
  · split at h
    · split at h
      · simp at h
      · split at h
        · simp at h
        · simp at h
          omega
    · split at h
      · split at h
        · simp at h
        · split at h
          · simp at h
          · simp at h
            omega
      · split at h
        · simp at h
        · split at h
          · simp at h
          · simp at h
            omega

/-- Witness for C5: the general range bound applied at the literal 42. -/
theorem claim5_witness : -(2 ^ 63) ≤ (42 : Int) ∧ (42 : Int) < 2 ^ 63 :=
  claim5_integer_range.1 "42" 42 (by rfl)

/-- C2: the scanner's string-escape state accepts the members of the
minimal escape set (shown at \0, the member the later stage breaks on)
and rejects anything else (shown at \q, with the invalid-escape error),
and escape expansion decodes the literal `"\t\n\\\""` to the
4-character string TAB LF backslash double-quote, end to end; but the
\0 member of the minimal set is not decoded to NUL: parse.go's
replaceEscapes has no '0' case and aborts in its internal-bug branch,
as the full pipeline on `a = "\0"` shows. -/
theorem claim2_escape_set :
    lexStep .lexStringEscape
        { input := ['0', '"'], start := 0, pos := 0, width := 0, line := 1, stack := [] } =
      ({ input := ['0', '"'], start := 0, pos := 1, width := 1, line := 1, stack := [] },
       [], some .lexString) ∧
    lexStep .lexStringEscape
        { input := ['q', '"'], start := 0, pos := 0, width := 0, line := 1, stack := [] } =
      ({ input := ['q', '"'], start := 0, pos := 1, width := 1, line := 1, stack := [] },
       [{ typ := .itemError,
          val := "Invalid escape character 'q'. Only the following escape characters are allowed: \\0, \\t, \\n, \\r, \\\", \\\\.",
          line := 1 }], none) ∧
    replaceEscapes ['\\', 't', '\\', 'n', '\\', '\\', '\\', '"'] = .ok ['\t', '\n', '\\', '"'] ∧
    parseTokens 10 (lexTokens 80 "k = \"\\t\\n\\\\\\\"\"\n") =
      .ok { mapping := [("k", .str "\t\n\\\"")], types := [("k", tomlString)],
            ordered := [["k"]], context := [], implicits := [] } ∧
    replaceEscapes ['\\', '0'] = .error (.bug "Expected valid escape code after \\, but got '0'.") ∧
    parseTokens 10 (lexTokens 60 "a = \"\\0\"\n") =
      .error (.bug "Expected valid escape code after \\, but got '0'.") := by
  refine ⟨rfl, rfl, rfl, ?_, rfl, ?_⟩
  · have h1 : lexTokens 80 "k = \"\\t\\n\\\\\\\"\"\n" =
        [{ typ := .itemKeyStart, val := "", line := 1 },
         { typ := .itemText, val := "k", line := 1 },
         { typ := .itemString, val := "\\t\\n\\\\\\\"", line := 1 },
         { typ := .itemEOF, val := "", line := 2 }] := rfl
    rw [h1]
    rfl
  · have h1 : lexTokens 60 "a = \"\\0\"\n" =
        [{ typ := .itemKeyStart, val := "", line := 1 },
         { typ := .itemText, val := "a", line := 1 },
         { typ := .itemString, val := "\\0", line := 1 },
         { typ := .itemEOF, val := "", line := 2 }] := rfl
    rw [h1]
    rfl

/-- C4: the header [a.b] before any [a] creates table a and flags its
path implicit; a subsequent [a] succeeds, clears the flag and keeps the
existing table with its contents untouched (the mapping is unchanged);
a further [a] fails with the already-defined error. -/
theorem claim4_implicit_promotion :
    parseTokens 20 (lexTokens 100 "[a.b]\n") =
      .ok { mapping := [("a", .table [("b", .table [])])], types := [("a.b", tomlHash)],
            ordered := [["a", "b"]], context := ["a", "b"], implicits := [("a", true)] } ∧
    isImplicitIn [("a", true)] ["a"] = true ∧
    parseTokens 20 (lexTokens 100 "[a.b]\n[a]\n") =
      .ok { mapping := [("a", .table [("b", .table [])])],
            types := [("a.b", tomlHash), ("a", tomlHash)],
            ordered := [["a", "b"], ["a"]], context := ["a"], implicits := [("a", false)] } ∧
    isImplicitIn [("a", false)] ["a"] = false ∧
    parseTokens 20 (lexTokens 200 "[a.b]\n[a]\n[a]\n") =
      .error (.err "Key 'a' has already been defined.") := by
  refine ⟨?_, rfl, ?_, rfl, ?_⟩
  · have h1 : lexTokens 100 "[a.b]\n" =
        [{ typ := .itemKeyGroupStart, val := "[", line := 1 },
         { typ := .itemText, val := "a", line := 1 },
         { typ := .itemText, val := "b", line := 1 },
         { typ := .itemKeyGroupEnd, val := "]", line := 1 },
         { typ := .itemEOF, val := "", line := 2 }] := rfl
    rw [h1]
    rfl
  · have h1 : lexTokens 100 "[a.b]\n[a]\n" =
        [{ typ := .itemKeyGroupStart, val := "[", line := 1 },
         { typ := .itemText, val := "a", line := 1 },
         { typ := .itemText, val := "b", line := 1 },
         { typ := .itemKeyGroupEnd, val := "]", line := 1 },
         { typ := .itemKeyGroupStart, val := "[", line := 2 },
         { typ := .itemText, val := "a", line := 2 },
         { typ := .itemKeyGroupEnd, val := "]", line := 2 },
         { typ := .itemEOF, val := "", line := 3 }] := rfl
    rw [h1]
    rfl
  · have h1 : lexTokens 200 "[a.b]\n[a]\n[a]\n" =
        [{ typ := .itemKeyGroupStart, val := "[", line := 1 },
         { typ := .itemText, val := "a", line := 1 },
         { typ := .itemText, val := "b", line := 1 },
         { typ := .itemKeyGroupEnd, val := "]", line := 1 },
         { typ := .itemKeyGroupStart, val := "[", line := 2 },
         { typ := .itemText, val := "a", line := 2 },
         { typ := .itemKeyGroupEnd, val := "]", line := 2 },
         { typ := .itemKeyGroupStart, val := "[", line := 3 },
         { typ := .itemText, val := "a", line := 3 },
         { typ := .itemKeyGroupEnd, val := "]", line := 3 },
         { typ := .itemEOF, val := "", line := 4 }] := rfl
    rw [h1]
    rfl

theorem assocGet_assocSet {α : Type} (m : List (String × α)) (k2 k : String) (v : α) :
    assocGet (assocSet m k2 v) k = if k2 = k then some v else assocGet m k := by
  induction m with
  | nil =>
    by_cases h : k2 = k <;> simp [assocSet, assocGet, h]
  | cons hd tl ih =>
    obtain ⟨hk, hv⟩ := hd
    by_cases h1 : hk = k2
    · subst h1
      by_cases h2 : hk = k <;> simp [assocSet, assocGet, h2]
    · by_cases h2 : hk = k
      · subst h2
        have hne : k2 ≠ hk := fun he => h1 he.symm
        simp [assocSet, assocGet, h1, hne]
      · simp [assocSet, assocGet, h1, h2, ih]

theorem assocSet_self {α : Type} (m : List (String × α)) (k : String) (v : α)
    (h : assocGet m k = some v) : assocSet m k v = m := by
  induction m with
  | nil => simp [assocGet] at h
  | cons hd tl ih =>
    obtain ⟨hk, hv⟩ := hd
    by_cases h1 : hk = k
    · subst h1
      simp [assocGet] at h
      simp [assocSet, h]
    · simp [assocGet, h1] at h
      simp [assocSet, h1, ih h]

theorem setValueAux_implicit :
    ∀ (ctx : List String) (impl : List (String × Bool)) (path : List String)
      (es es2 : List (String × tomlValue)) (key : String) (v w : tomlValue),
      walkTable es ctx = some es2 →
      assocGet es2 key = some w →
      isImplicitIn impl (path ++ ctx ++ [key]) = true →
      setValueAux impl path es ctx key v =
        .ok (es, assocSet impl (keyString (path ++ ctx ++ [key])) false) := by
  intro ctx
  induction ctx with
  | nil =>
    intro impl path es es2 key v w h1 h2 h3
    simp [walkTable] at h1
    subst h1
    simp only [List.append_nil] at h3 ⊢
    rw [setValueAux, h2]
    simp [h3]
  | cons k ks ih =>
    intro impl path es es2 key v w h1 h2 h3
    rw [walkTable] at h1
    cases hk : assocGet es k with
    | none => rw [hk] at h1; simp at h1
    | some val =>
      rw [hk] at h1
      cases val with
      | table sub =>
        have hrec := ih impl (path ++ [k]) sub es2 key v w h1 h2
          (by simpa [List.append_assoc] using h3)
        rw [setValueAux, hk]
        dsimp only
        rw [hrec]
        dsimp only
        rw [assocSet_self es k (.table sub) hk]
        simp [List.append_assoc]
      | str s => simp at h1
      | int n => simp at h1
      | float r => simp at h1
      | bool b => simp at h1
      | datetime r => simp at h1
      | arr vs => simp at h1

/-- C10: when an insertion targets a key that is already present and
whose fully qualified path is flagged implicit, setValue only clears the
flag: the stored document value is untouched, the supplied value is
discarded, and no error is raised. -/
theorem claim10_implicit_insert_frame (st : PState) (key : String) (v w : tomlValue)
    (es2 : List (String × tomlValue))
    (h1 : walkTable st.mapping st.context = some es2)
    (h2 : assocGet es2 key = some w)
    (h3 : isImplicitIn st.implicits (st.context ++ [key]) = true) :
    setValue st key v =
      .ok { st with implicits := assocSet st.implicits (keyString (st.context ++ [key])) false } := by
  unfold setValue
  rw [setValueAux_implicit st.context st.implicits [] st.mapping es2 key v w h1 h2
    (by simpa using h3)]
  rfl

/-- Witness for C10: promoting the implicitly created path a.b while
assigning it the integer 5 leaves the stored empty table in place and
only clears the flag. -/
theorem claim10_witness :
    setValue
      { mapping := [("a", .table [("b", .table [])])], types := [], ordered := [],
        context := ["a"], implicits := [("a.b", true)] } "b" (.int 5) =
      .ok { mapping := [("a", .table [("b", .table [])])], types := [], ordered := [],
            context := ["a"], implicits := [("a.b", false)] } := by
  have h := claim10_implicit_insert_frame
    { mapping := [("a", .table [("b", .table [])])], types := [], ordered := [],
      context := ["a"], implicits := [("a.b", true)] }
    "b" (.int 5) (.table []) [("b", .table [])] (by rfl) (by rfl) (by rfl)
  simpa using h

/-- Scanner configuration reached by the input `a` once lexKey has hit
end of input: the cursor sits at position 1 of a 1-character input with
zero width, and lexKey maps it to itself. -/
def c8LoopCfg : Lexer :=
  { input := ['a'], start := 0, pos := 1, width := 0, line := 1, stack := [.lexTopValueEnd] }

/-- Configuration after the key-start token of the input `a` (one step
earlier than `c8LoopCfg`: the width is still 1). -/
def c8KeyCfg : Lexer :=
  { input := ['a'], start := 0, pos := 1, width := 1, line := 1, stack := [.lexTopValueEnd] }

theorem c8_loop_run : ∀ n, lexRun n c8LoopCfg (some .lexKey) = [] := by
  intro n
  induction n with
  | zero => rfl
  | succ m ih =>
    have hstep : lexStep .lexKey c8LoopCfg = (c8LoopCfg, [], some .lexKey) := rfl
    rw [lexRun, hstep]
    simpa using ih

theorem c8_key_run : ∀ n, lexRun n c8KeyCfg (some .lexKey) = [] := by
  intro n
  match n with
  | 0 => rfl
  | k + 1 =>
    have hstep : lexStep .lexKey c8KeyCfg = (c8LoopCfg, [], some .lexKey) := rfl
    rw [lexRun, hstep]
    simpa using c8_loop_run k

/-- C8: the claimed finiteness of the token stream fails on the code: on
the input `a` (a key that reaches end of input with no whitespace after
it), lexKey never tests for end of input, so the scanner loops forever
after emitting the key-start token; whatever the fuel, the collected
stream never contains an end-of-input token or an error token. -/
theorem claim8_stream_never_terminates (n : Nat) :
    (lexRun n (lexInit "a") (some .lexTop)).all
      (fun it => !(it.typ == .itemEOF) && !(it.typ == .itemError)) = true := by
  match n with
  | 0 => rfl
  | 1 => rfl
  | m + 2 =>
    have h : lexRun (m + 2) (lexInit "a") (some .lexTop) =
        { typ := .itemKeyStart, val := "", line := 1 } :: lexRun m c8KeyCfg (some .lexKey) := rfl
    rw [h, c8_key_run m]
    rfl

/-- C6: from the state entered after a top-level value, a comment
marker, whitespace, a line break and end of input are each accepted
without any error token (whitespace re-enters the same state, so an
arbitrary run of it is skipped before the decisive character); any other
character produces exactly one error token, after which the scanner is
stopped and a stopped scanner emits no further tokens. -/
theorem claim6_top_value_end :
    (∀ lx : Lexer, lx.pos < lx.input.length → lx.input.getD lx.pos '\x00' = '#' →
      lexStep .lexTopValueEnd lx =
        ({ lx with pos := lx.pos + 1, width := 1, stack := .lexTop :: lx.stack }, [],
         some .lexCommentStart)) ∧
    (∀ lx : Lexer, lx.pos < lx.input.length →
      isWhitespace (lx.input.getD lx.pos '\x00') = true →
      lexStep .lexTopValueEnd lx =
        ({ lx with pos := lx.pos + 1, width := 1 }, [], some .lexTopValueEnd)) ∧
    (∀ lx : Lexer, lx.pos < lx.input.length → lx.input.getD lx.pos '\x00' = '\n' →
      lexStep .lexTopValueEnd lx =
        ({ lx with pos := lx.pos + 1, width := 1, line := lx.line + 1, start := lx.pos + 1 }, [],
         some .lexTop)) ∧
    (∀ lx : Lexer, lx.pos < lx.input.length → lx.input.getD lx.pos '\x00' = '\r' →
      lexStep .lexTopValueEnd lx =
        ({ lx with pos := lx.pos + 1, width := 1, start := lx.pos + 1 }, [], some .lexTop)) ∧
    (∀ lx : Lexer, lx.input.length ≤ lx.pos →
      lexStep .lexTopValueEnd lx =
        ({ lx with width := 0, start := lx.pos }, [], some .lexTop)) ∧
    (∀ lx : Lexer, lx.pos < lx.input.length →
      lx.input.getD lx.pos '\x00' ≠ '#' →
      isWhitespace (lx.input.getD lx.pos '\x00') = false →
      isNL (lx.input.getD lx.pos '\x00') = false →
      lx.input.getD lx.pos '\x00' ≠ '\x00' →
      lexStep .lexTopValueEnd lx =
        ({ lx with pos := lx.pos + 1, width := 1 },
         [{ typ := .itemError,
            val := "Expected a top-level value to end with a new line, comment or EOF, but got '" ++
              escapeSpecial (lx.input.getD lx.pos '\x00') ++ "' instead.",
            line := lx.line }],
         none)) ∧
    (∀ (n : Nat) (lx : Lexer), lexRun n lx none = []) := by
  refine ⟨?_, ?_, ?_, ?_, ?_, ?_, ?_⟩
  · intro lx h1 h2
    simp only [lexStep, Lexer.next]
    rw [if_neg (show ¬ lx.pos ≥ lx.input.length by omega)]
    dsimp only
    rw [h2]
    simp [isWhitespace, isNL]
  · intro lx h1 h2
    have hc : lx.input.getD lx.pos '\x00' = '\t' ∨ lx.input.getD lx.pos '\x00' = ' ' := by
      simpa [isWhitespace] using h2
    rcases hc with hc | hc <;>
      (simp only [lexStep, Lexer.next]
       rw [if_neg (show ¬ lx.pos ≥ lx.input.length by omega)]
       dsimp only
       rw [hc]
       simp [isWhitespace, isNL])
  · intro lx h1 h2
    simp only [lexStep, Lexer.next]
    rw [if_neg (show ¬ lx.pos ≥ lx.input.length by omega)]
    dsimp only
    rw [h2]
    simp [isWhitespace, isNL, Lexer.ignore]
  · intro lx h1 h2
    simp only [lexStep, Lexer.next]
    rw [if_neg (show ¬ lx.pos ≥ lx.input.length by omega)]
    dsimp only
    rw [h2]
    simp [isWhitespace, isNL, Lexer.ignore]
  · intro lx h1
    simp only [lexStep, Lexer.next]
    rw [if_pos (show lx.pos ≥ lx.input.length from h1)]
    dsimp only
    simp [isWhitespace, isNL, Lexer.ignore]
  · intro lx h1 h2 h3 h4 h5
    have hnl : lx.input.getD lx.pos '\x00' ≠ '\n' := by
      intro he; rw [he] at h4; simp [isNL] at h4
    simp only [lexStep, Lexer.next]
    rw [if_neg (show ¬ lx.pos ≥ lx.input.length by omega)]
    dsimp only
    rw [if_neg hnl]
    rw [if_neg (show ¬((lx.input.getD lx.pos '\x00' == '#') = true) by
      simp only [beq_iff_eq]; exact h2)]
    rw [if_neg (show ¬(isWhitespace (lx.input.getD lx.pos '\x00') = true) by
      rw [h3]; simp)]
    rw [if_neg (show ¬(isNL (lx.input.getD lx.pos '\x00') = true) by
      rw [h4]; simp)]
    rw [if_neg (show ¬((lx.input.getD lx.pos '\x00' == '\x00') = true) by
      simp only [beq_iff_eq]; exact h5)]
    rfl
  · intro n lx
    cases n <;> rfl

/-- Witness for C6 at concrete scanner states over the input ` q`: the
whitespace is skipped, then the character q draws the error token and
stops the scanner, and the stopped scanner emits nothing. -/
theorem claim6_witness :
    lexStep .lexTopValueEnd { input := [' ', 'q'], start := 0, pos := 0, width := 0, line := 1, stack := [] } =
      ({ input := [' ', 'q'], start := 0, pos := 1, width := 1, line := 1, stack := [] }, [],
       some .lexTopValueEnd) ∧
    lexStep .lexTopValueEnd { input := [' ', 'q'], start := 0, pos := 1, width := 1, line := 1, stack := [] } =
      ({ input := [' ', 'q'], start := 0, pos := 2, width := 1, line := 1, stack := [] },
       [{ typ := .itemError,
          val := "Expected a top-level value to end with a new line, comment or EOF, but got 'q' instead.",
          line := 1 }], none) ∧
    lexRun 7 { input := [' ', 'q'], start := 0, pos := 2, width := 1, line := 1, stack := [] } none = [] := by
  refine ⟨?_, ?_, ?_⟩
  · exact claim6_top_value_end.2.1
      { input := [' ', 'q'], start := 0, pos := 0, width := 0, line := 1, stack := [] }
      (by decide) (by decide)
  · exact claim6_top_value_end.2.2.2.2.2.1
      { input := [' ', 'q'], start := 0, pos := 1, width := 1, line := 1, stack := [] }
      (by decide) (by decide) (by decide) (by decide) (by decide)
  · exact claim6_top_value_end.2.2.2.2.2.2 7
      { input := [' ', 'q'], start := 0, pos := 2, width := 1, line := 1, stack := [] }

theorem getD_getElem_of_lt (l : List Char) (i : Nat) (h : i < l.length) (c : Char)
    (hc : l.getD i '\x00' = c) : l[i] = c := by
  rw [List.getD_eq_getElem?_getD] at hc
  rw [List.getElem?_eq_getElem h] at hc
  simpa using hc

/-- C3 counterexample to the claim as stated: the claim says a numeric
literal also ends at end-of-input (with the terminator put back); on the
input `a = 5`, whose integer literal is terminated by end-of-input, the
scanner instead emits an error token and never an integer token. -/
theorem claim3_counterexample :
    lexTokens 20 "a = 5" =
      [{ typ := .itemKeyStart, val := "", line := 1 },
       { typ := .itemText, val := "a", line := 1 },
       { typ := .itemError,
         val := "Expected a digit, '.' or the end of a value, but got '\x00' instead.",
         line := 1 }] ∧
    (lexTokens 20 "a = 5").all (fun it => !(it.typ == .itemInteger)) = true :=
  ⟨rfl, rfl⟩

/-- C3 (amended): a bare dot with no preceding digit draws the distinct
friendly error, from the value dispatch as well as from the number-start
state; digits continue the number; after digits a dot switches to float
mode, which demands at least one digit (else error); and a numeric
literal ends at the first whitespace or line break, which is put back
(the cursor stays on it) while the token carries the digits scanned so
far; at end of input the scanner does not terminate the literal but
raises an error instead. -/
theorem claim3_numeric_scanning :
    (∀ lx : Lexer, lx.pos < lx.input.length → lx.input.getD lx.pos '\x00' = '.' →
      lexStep .lexValue lx =
        ({ lx with pos := lx.pos + 1, width := 1 },
         [{ typ := .itemError, val := "Floats must start with a digit, not '.'.", line := lx.line }],
         none)) ∧
    (∀ lx : Lexer, lx.pos < lx.input.length → lx.input.getD lx.pos '\x00' = '.' →
      lexStep .lexNumberStart lx =
        ({ lx with pos := lx.pos + 1, width := 1 },
         [{ typ := .itemError, val := "Floats must start with a digit, not '.'.", line := lx.line }],
         none)) ∧
    (∀ lx : Lexer, lx.pos < lx.input.length →
      isDigit (lx.input.getD lx.pos '\x00') = true →
      lexStep .lexNumberStart lx =
        ({ lx with pos := lx.pos + 1, width := 1 }, [], some .lexNumber)) ∧
    (∀ lx : Lexer, lx.pos < lx.input.length →
      isDigit (lx.input.getD lx.pos '\x00') = true →
      lexStep .lexNumber lx =
        ({ lx with pos := lx.pos + 1, width := 1 }, [], some .lexNumber)) ∧
    (∀ lx : Lexer, lx.pos < lx.input.length → lx.input.getD lx.pos '\x00' = '.' →
      lexStep .lexNumber lx =
        ({ lx with pos := lx.pos + 1, width := 1 }, [], some .lexFloatStart)) ∧
    (∀ lx : Lexer, lx.pos < lx.input.length →
      isDigit (lx.input.getD lx.pos '\x00') = true →
      lexStep .lexFloatStart lx =
        ({ lx with pos := lx.pos + 1, width := 1 }, [], some .lexFloat)) ∧
    (∀ lx : Lexer, lx.pos < lx.input.length →
      isDigit (lx.input.getD lx.pos '\x00') = false →
      lx.input.getD lx.pos '\x00' ≠ '\n' →
      lexStep .lexFloatStart lx =
        ({ lx with pos := lx.pos + 1, width := 1 },
         [{ typ := .itemError,
            val := "Floats must have a digit after the '.', but got '" ++
              escapeSpecial (lx.input.getD lx.pos '\x00') ++ "' instead.",
            line := lx.line }],
         none)) ∧
    (∀ (lx : Lexer) (s : LexState) (rest : List LexState),
      lx.stack = s :: rest → lx.pos < lx.input.length →
      (isWhitespace (lx.input.getD lx.pos '\x00') || isNL (lx.input.getD lx.pos '\x00')) = true →
      lexStep .lexNumber lx =
        ({ lx with width := 1, start := lx.pos, stack := rest },
         [{ typ := .itemInteger, val := String.mk ((lx.input.take lx.pos).drop lx.start),
            line := lx.line }],
         some s)) ∧
    (∀ (lx : Lexer) (s : LexState) (rest : List LexState),
      lx.stack = s :: rest → lx.pos < lx.input.length →
      (isWhitespace (lx.input.getD lx.pos '\x00') || isNL (lx.input.getD lx.pos '\x00')) = true →
      lexStep .lexFloat lx =
        ({ lx with width := 1, start := lx.pos, stack := rest },
         [{ typ := .itemFloat, val := String.mk ((lx.input.take lx.pos).drop lx.start),
            line := lx.line }],
         some s)) ∧
    (∀ lx : Lexer, lx.input.length ≤ lx.pos →
      lexStep .lexNumber lx =
        ({ lx with width := 0 },
         [{ typ := .itemError,
            val := "Expected a digit, '.' or the end of a value, but got '\x00' instead.",
            line := lx.line }],
         none)) := by
  refine ⟨?_, ?_, ?_, ?_, ?_, ?_, ?_, ?_, ?_, ?_⟩
  · intro lx h1 h2
    simp only [lexStep, Lexer.next]
    rw [if_neg (show ¬ lx.pos ≥ lx.input.length by omega)]
    dsimp only
    rw [h2]
    simp [isWhitespace, isNL, isDigit, errItem]
  · intro lx h1 h2
    simp only [lexStep, Lexer.next]
    rw [if_neg (show ¬ lx.pos ≥ lx.input.length by omega)]
    dsimp only
    rw [h2]
    simp [isDigit, errItem]
  · intro lx h1 h2
    have hnl : lx.input.getD lx.pos '\x00' ≠ '\n' := by
      intro he; rw [he] at h2; simp [isDigit] at h2
    simp only [lexStep, Lexer.next]
    rw [if_neg (show ¬ lx.pos ≥ lx.input.length by omega)]
    dsimp only
    rw [if_neg hnl, if_pos h2]
  · intro lx h1 h2
    have hnl : lx.input.getD lx.pos '\x00' ≠ '\n' := by
      intro he; rw [he] at h2; simp [isDigit] at h2
    simp only [lexStep, Lexer.next]
    rw [if_neg (show ¬ lx.pos ≥ lx.input.length by omega)]
    dsimp only
    rw [if_neg hnl, if_pos h2]
  · intro lx h1 h2
    simp only [lexStep, Lexer.next]
    rw [if_neg (show ¬ lx.pos ≥ lx.input.length by omega)]
    dsimp only
    rw [h2]
    simp [isDigit, isWhitespace, isNL]
  · intro lx h1 h2
    have hnl : lx.input.getD lx.pos '\x00' ≠ '\n' := by
      intro he; rw [he] at h2; simp [isDigit] at h2
    simp only [lexStep, Lexer.next]
    rw [if_neg (show ¬ lx.pos ≥ lx.input.length by omega)]
    dsimp only
    rw [if_neg hnl, if_pos h2]
  · intro lx h1 h2 h3
    simp only [lexStep, Lexer.next]
    rw [if_neg (show ¬ lx.pos ≥ lx.input.length by omega)]
    dsimp only
    rw [if_neg h3, if_neg (show ¬(isDigit (lx.input.getD lx.pos '\x00') = true) by rw [h2]; simp)]
    rfl
  · intro lx s rest hst h1 h2
    have hc : lx.input.getD lx.pos '\x00' = '\t' ∨ lx.input.getD lx.pos '\x00' = ' ' ∨
        lx.input.getD lx.pos '\x00' = '\n' ∨ lx.input.getD lx.pos '\x00' = '\r' := by
      simpa [isWhitespace, isNL, or_assoc] using h2
    rcases hc with hc | hc | hc | hc <;>
      (have hc2 := getD_getElem_of_lt lx.input lx.pos h1 _ hc
       simp only [lexStep, Lexer.next]
       rw [if_neg (show ¬ lx.pos ≥ lx.input.length by omega)]
       dsimp only
       rw [hc]
       simp [isDigit, isWhitespace, isNL, Lexer.backup, Lexer.emit, Lexer.popState, hst, h1, hc, hc2])
  · intro lx s rest hst h1 h2
    have hc : lx.input.getD lx.pos '\x00' = '\t' ∨ lx.input.getD lx.pos '\x00' = ' ' ∨
        lx.input.getD lx.pos '\x00' = '\n' ∨ lx.input.getD lx.pos '\x00' = '\r' := by
      simpa [isWhitespace, isNL, or_assoc] using h2
    rcases hc with hc | hc | hc | hc <;>
      (have hc2 := getD_getElem_of_lt lx.input lx.pos h1 _ hc
       simp only [lexStep, Lexer.next]
       rw [if_neg (show ¬ lx.pos ≥ lx.input.length by omega)]
       dsimp only
       rw [hc]
       simp [isDigit, isWhitespace, isNL, Lexer.backup, Lexer.emit, Lexer.popState, hst, h1, hc, hc2])
  · intro lx h1
    simp only [lexStep, Lexer.next]
    rw [if_pos (show lx.pos ≥ lx.input.length from h1)]
    dsimp only
    rfl

/-- Witness for C3 at concrete scanner states: the friendly bare-dot
error from both entry states, digit and dot transitions, the
missing-fraction error, integer and float termination at whitespace and
at a line break (cursor left on the terminator), and the error raised
when a number meets end of input. -/
theorem claim3_witness :
    lexStep .lexValue { input := ['.'], start := 0, pos := 0, width := 0, line := 1, stack := [] } =
      ({ input := ['.'], start := 0, pos := 1, width := 1, line := 1, stack := [] },
       [{ typ := .itemError, val := "Floats must start with a digit, not '.'.", line := 1 }], none) ∧
    lexStep .lexNumberStart { input := ['.'], start := 0, pos := 0, width := 0, line := 1, stack := [] } =
      ({ input := ['.'], start := 0, pos := 1, width := 1, line := 1, stack := [] },
       [{ typ := .itemError, val := "Floats must start with a digit, not '.'.", line := 1 }], none) ∧
    lexStep .lexNumberStart { input := ['5', ' '], start := 0, pos := 0, width := 0, line := 1, stack := [] } =
      ({ input := ['5', ' '], start := 0, pos := 1, width := 1, line := 1, stack := [] }, [],
       some .lexNumber) ∧
    lexStep .lexNumber { input := ['5', ' '], start := 0, pos := 0, width := 0, line := 1, stack := [] } =
      ({ input := ['5', ' '], start := 0, pos := 1, width := 1, line := 1, stack := [] }, [],
       some .lexNumber) ∧
    lexStep .lexNumber { input := ['1', '.'], start := 0, pos := 1, width := 1, line := 1, stack := [] } =
      ({ input := ['1', '.'], start := 0, pos := 2, width := 1, line := 1, stack := [] }, [],
       some .lexFloatStart) ∧
    lexStep .lexFloatStart { input := ['5', ' '], start := 0, pos := 0, width := 0, line := 1, stack := [] } =
      ({ input := ['5', ' '], start := 0, pos := 1, width := 1, line := 1, stack := [] }, [],
       some .lexFloat) ∧
    lexStep .lexFloatStart { input := [' '], start := 0, pos := 0, width := 0, line := 1, stack := [] } =
      ({ input := [' '], start := 0, pos := 1, width := 1, line := 1, stack := [] },
       [{ typ := .itemError, val := "Floats must have a digit after the '.', but got ' ' instead.",
          line := 1 }], none) ∧
    lexStep .lexNumber { input := ['4', ' '], start := 0, pos := 1, width := 1, line := 1, stack := [.lexTopValueEnd] } =
      ({ input := ['4', ' '], start := 1, pos := 1, width := 1, line := 1, stack := [] },
       [{ typ := .itemInteger, val := "4", line := 1 }], some .lexTopValueEnd) ∧
    lexStep .lexFloat { input := ['1', '.', '5', '\n'], start := 0, pos := 3, width := 1, line := 1, stack := [.lexTopValueEnd] } =
      ({ input := ['1', '.', '5', '\n'], start := 3, pos := 3, width := 1, line := 1, stack := [] },
       [{ typ := .itemFloat, val := "1.5", line := 1 }], some .lexTopValueEnd) ∧
    lexStep .lexNumber { input := ['7'], start := 0, pos := 1, width := 1, line := 1, stack := [.lexTopValueEnd] } =
      ({ input := ['7'], start := 0, pos := 1, width := 0, line := 1, stack := [.lexTopValueEnd] },
       [{ typ := .itemError,
          val := "Expected a digit, '.' or the end of a value, but got '\x00' instead.",
          line := 1 }], none) := by
  refine ⟨?_, ?_, ?_, ?_, ?_, ?_, ?_, ?_, ?_, ?_⟩
  · exact claim3_numeric_scanning.1
      { input := ['.'], start := 0, pos := 0, width := 0, line := 1, stack := [] }
      (by decide) (by decide)
  · exact claim3_numeric_scanning.2.1
      { input := ['.'], start := 0, pos := 0, width := 0, line := 1, stack := [] }
      (by decide) (by decide)
  · exact claim3_numeric_scanning.2.2.1
      { input := ['5', ' '], start := 0, pos := 0, width := 0, line := 1, stack := [] }
      (by decide) (by decide)
  · exact claim3_numeric_scanning.2.2.2.1
      { input := ['5', ' '], start := 0, pos := 0, width := 0, line := 1, stack := [] }
      (by decide) (by decide)
  · exact claim3_numeric_scanning.2.2.2.2.1
      { input := ['1', '.'], start := 0, pos := 1, width := 1, line := 1, stack := [] }
      (by decide) (by decide)
  · exact claim3_numeric_scanning.2.2.2.2.2.1
      { input := ['5', ' '], start := 0, pos := 0, width := 0, line := 1, stack := [] }
      (by decide) (by decide)
  · exact claim3_numeric_scanning.2.2.2.2.2.2.1
      { input := [' '], start := 0, pos := 0, width := 0, line := 1, stack := [] }
      (by decide) (by decide) (by decide)
  · exact claim3_numeric_scanning.2.2.2.2.2.2.2.1
      { input := ['4', ' '], start := 0, pos := 1, width := 1, line := 1, stack := [.lexTopValueEnd] }
      .lexTopValueEnd [] (by rfl) (by decide) (by decide)
  · exact claim3_numeric_scanning.2.2.2.2.2.2.2.2.1
      { input := ['1', '.', '5', '\n'], start := 0, pos := 3, width := 1, line := 1, stack := [.lexTopValueEnd] }
      .lexTopValueEnd [] (by rfl) (by decide) (by decide)
  · exact claim3_numeric_scanning.2.2.2.2.2.2.2.2.2
      { input := ['7'], start := 0, pos := 1, width := 1, line := 1, stack := [.lexTopValueEnd] }
      (by decide)

theorem assocGet_isSome_assocSet {α : Type} (m : List (String × α)) (k2 k : String) (v : α)
    (h : (assocGet m k).isSome = true) : (assocGet (assocSet m k2 v) k).isSome = true := by
  rw [assocGet_assocSet]
  by_cases he : k2 = k <;> simp [he, h]

theorem setValue_frame (st : PState) (key : String) (v : tomlValue) (st2 : PState)
    (h : setValue st key v = .ok st2) :
    st2.types = st.types ∧ st2.ordered = st.ordered ∧ st2.context = st.context := by
  unfold setValue at h
  cases ha : setValueAux st.implicits [] st.mapping st.context key v with
  | ok pr =>
    rw [ha] at h
    obtain ⟨m2, impl2⟩ := pr
    simp at h
    rw [← h]
    exact ⟨rfl, rfl, rfl⟩
  | error e => rw [ha] at h; simp at h

theorem setType_ok (st : PState) (key : String) (typ : tomlType) (st2 : PState)
    (h : setType st key typ = .ok st2) :
    assocGet st.types (keyString (if key.length > 0 then st.context ++ [key] else st.context)) = none ∧
    st2 = { st with
      types := assocSet st.types
        (keyString (if key.length > 0 then st.context ++ [key] else st.context)) typ } := by
  unfold setType at h
  dsimp only at h
  cases hg : assocGet st.types (keyString (if key.length > 0 then st.context ++ [key] else st.context)) with
  | some t => rw [hg] at h; simp at h
  | none => rw [hg] at h; simp at h; exact ⟨rfl, h.symm⟩

theorem establishContext_frame (st : PState) (key : List String) (st2 : PState)
    (h : establishContext st key = .ok st2) :
    st2.types = st.types ∧ st2.ordered = st.ordered ∧ st2.context = key := by
  unfold establishContext at h
  cases hsp : splitLast key with
  | none => rw [hsp] at h; simp at h
  | some pr =>
    obtain ⟨parents, last⟩ := pr
    rw [hsp] at h
    dsimp only at h
    cases hea : establishAux st.implicits [] st.mapping parents with
    | error e => rw [hea] at h; simp at h
    | ok pr2 =>
      obtain ⟨m2, impl2⟩ := pr2
      rw [hea] at h
      dsimp only at h
      cases hsv : setValue
          { st with mapping := m2, implicits := impl2, context := parents }
          last (tomlValue.table []) with
      | error e => rw [hsv] at h; simp at h
      | ok st3 =>
        rw [hsv] at h
        simp at h
        have hf := setValue_frame _ _ _ _ hsv
        rw [← h]
        refine ⟨hf.1, hf.2.1, ?_⟩
        exact (splitLast_eq key parents last hsp).symm

/-- Invariant carried by the parser loop for the uniqueness claim: the
ordered key-path list has no duplicates, every listed path has a type
recorded under its dot-joined string, and a nonempty current context
(which always comes from a successfully processed header) has one too.
setType refuses to record a type twice (its bug abort), which is what
makes a second append of the same path impossible. -/
def PInv (st : PState) : Prop :=
  st.ordered.Nodup ∧
  (∀ q ∈ st.ordered, (assocGet st.types (keyString q)).isSome = true) ∧
  (st.context ≠ [] → (assocGet st.types (keyString st.context)).isSome = true)

theorem keyString_singleton_empty : keyString [""] = keyString [] := by
  decide

theorem string_eq_empty_of_length_zero (s : String) (h : s.length = 0) : s = "" := by
  obtain ⟨l⟩ := s
  have hl : l.length = 0 := h
  rw [List.length_eq_zero] at hl
  rw [hl]

theorem nodup_append_single (l : List (List String)) (a : List String)
    (h1 : l.Nodup) (h2 : a ∉ l) : (l ++ [a]).Nodup := by
  simp [List.nodup_append, h1, h2]

theorem topLevelStep_inv (fuel : Nat) (st : PState) (it : item) (toks : List item)
    (st2 : PState) (rest : List item) (hinv : PInv st)
    (h : topLevelStep fuel st it toks = .ok (st2, rest)) : PInv st2 := by
  unfold topLevelStep at h
  cases hty : it.typ <;> rw [hty] at h <;> dsimp only at h
  case itemCommentStart =>
    cases hp : pnext toks with
    | error e => rw [hp] at h; simp at h
    | ok pr =>
      obtain ⟨t, r⟩ := pr
      rw [hp] at h
      dsimp only at h
      by_cases ht : t.typ = .itemText
      · rw [if_pos ht] at h
        simp at h
        rw [← h.1]
        exact hinv
      · rw [if_neg ht] at h; simp at h
  case itemKeyGroupStart =>
    cases hp : pnext toks with
    | error e => rw [hp] at h; simp at h
    | ok pr =>
      obtain ⟨kg, r⟩ := pr
      rw [hp] at h
      dsimp only at h
      by_cases hkg : kg.typ = .itemText
      · rw [if_pos hkg] at h
        cases hkl : keyGroupLoop r [kg.val] with
        | error e => rw [hkl] at h; simp at h
        | ok pr2 =>
          obtain ⟨key, rest2⟩ := pr2
          rw [hkl] at h
          dsimp only at h
          cases hec : establishContext st key with
          | error e => rw [hec] at h; simp at h
          | ok stA =>
            rw [hec] at h
            dsimp only at h
            cases hst : setType stA "" tomlHash with
            | error e => rw [hst] at h; simp at h
            | ok stB =>
              rw [hst] at h
              simp at h
              obtain ⟨hA1, hA2, hA3⟩ := establishContext_frame st key stA hec
              obtain ⟨hnone, hB⟩ := setType_ok stA "" tomlHash stB hst
              rw [if_neg (show ¬(("" : String).length > 0) by decide)] at hnone hB
              rw [hA3, hA1] at hnone
              have hmem : key ∉ st.ordered := by
                intro hm
                have := hinv.2.1 key hm
                rw [hnone] at this
                simp at this
              rw [← h.1, hB]
              refine ⟨?_, ?_, ?_⟩
              · simp only [hA2]
                exact nodup_append_single st.ordered key hinv.1 hmem
              · intro q hq
                simp only [hA2, List.mem_append, List.mem_singleton] at hq
                simp only [hA1, hA3]
                rcases hq with hq | hq
                · exact assocGet_isSome_assocSet st.types (keyString key) (keyString q) tomlHash
                    (hinv.2.1 q hq)
                · subst hq
                  rw [assocGet_assocSet, if_pos rfl]
                  rfl
              · intro _
                simp only [hA1, hA3]
                rw [assocGet_assocSet, if_pos rfl]
                rfl
      · rw [if_neg hkg] at h; simp at h
  case itemKeyStart =>
    cases hp : pnext toks with
    | error e => rw [hp] at h; simp at h
    | ok pr =>
      obtain ⟨kname, r⟩ := pr
      rw [hp] at h
      dsimp only at h
      by_cases hkg : kname.typ = .itemText
      · rw [if_pos hkg] at h
        cases hp2 : pnext r with
        | error e => rw [hp2] at h; simp at h
        | ok pr2 =>
          obtain ⟨vit, rest2⟩ := pr2
          rw [hp2] at h
          dsimp only at h
          cases hv : pvalue fuel vit rest2 with
          | error e => rw [hv] at h; simp at h
          | ok pr3 =>
            obtain ⟨v, typ, rest3⟩ := pr3
            rw [hv] at h
            dsimp only at h
            cases hsv : setValue st kname.val v with
            | error e => rw [hsv] at h; simp at h
            | ok stA =>
              rw [hsv] at h
              dsimp only at h
              cases hst : setType stA kname.val typ with
              | error e => rw [hst] at h; simp at h
              | ok stB =>
                rw [hst] at h
                simp at h
                obtain ⟨hA1, hA2, hA3⟩ := setValue_frame st kname.val v stA hsv
                obtain ⟨hnone, hB⟩ := setType_ok stA kname.val typ stB hst
                by_cases hk : kname.val.length > 0
                · rw [if_pos hk] at hnone hB
                  rw [hA3, hA1] at hnone
                  have hmem : st.context ++ [kname.val] ∉ st.ordered := by
                    intro hm
                    have := hinv.2.1 _ hm
                    rw [hnone] at this
                    simp at this
                  rw [← h.1, hB]
                  refine ⟨?_, ?_, ?_⟩
                  · simp only [hA2, hA3]
                    exact nodup_append_single st.ordered (st.context ++ [kname.val]) hinv.1 hmem
                  · intro q hq
                    simp only [hA2, hA3, List.mem_append, List.mem_singleton] at hq
                    simp only [hA1, hA3]
                    rcases hq with hq | hq
                    · exact assocGet_isSome_assocSet st.types
                        (keyString (st.context ++ [kname.val])) (keyString q) typ
                        (hinv.2.1 q hq)
                    · subst hq
                      rw [assocGet_assocSet, if_pos rfl]
                      rfl
                  · intro hctx
                    simp only [hA1, hA3] at hctx ⊢
                    exact assocGet_isSome_assocSet st.types
                      (keyString (st.context ++ [kname.val])) (keyString st.context) typ
                      (hinv.2.2 hctx)
                · rw [if_neg hk] at hnone hB
                  rw [hA3, hA1] at hnone
                  have hk0 : kname.val = "" := by
                    have hl : kname.val.length = 0 := by omega
                    exact string_eq_empty_of_length_zero kname.val hl
                  cases hctx : st.context with
                  | cons c cs =>
                    exfalso
                    have := hinv.2.2 (by rw [hctx]; simp)
                    rw [hnone] at this
                    simp at this
                  | nil =>
                    have hmem : st.context ++ [kname.val] ∉ st.ordered := by
                      intro hm
                      have hsome := hinv.2.1 _ hm
                      rw [hctx, hk0] at hsome
                      simp only [List.nil_append] at hsome
                      rw [keyString_singleton_empty] at hsome
                      rw [hctx] at hnone
                      rw [hnone] at hsome
                      simp at hsome
                    rw [← h.1, hB]
                    refine ⟨?_, ?_, ?_⟩
                    · simp only [hA2, hA3]
                      exact nodup_append_single st.ordered (st.context ++ [kname.val]) hinv.1 hmem
                    · intro q hq
                      simp only [hA2, hA3, List.mem_append, List.mem_singleton] at hq
                      simp only [hA1, hA3]
                      rcases hq with hq | hq
                      · exact assocGet_isSome_assocSet st.types
                          (keyString st.context) (keyString q) typ (hinv.2.1 q hq)
                      · subst hq
                        rw [hctx, hk0]
                        simp only [List.nil_append]
                        rw [keyString_singleton_empty]
                        rw [assocGet_assocSet, if_pos rfl]
                        rfl
                    · intro hctx2
                      simp only [hA3, hctx] at hctx2
                      simp at hctx2
      · rw [if_neg hkg] at h; simp at h
  all_goals simp at h

theorem parseItems_inv : ∀ (fuel : Nat) (st : PState) (toks : List item) (st2 : PState),
    PInv st → parseItems fuel st toks = .ok st2 → PInv st2 := by
  intro fuel
  induction fuel with
  | zero => intro st toks st2 _ h; simp [parseItems] at h
  | succ m ih =>
    intro st toks st2 hinv h
    rw [parseItems] at h
    cases hp : pnext toks with
    | error e => rw [hp] at h; simp at h
    | ok pr =>
      obtain ⟨it, rest⟩ := pr
      rw [hp] at h
      dsimp only at h
      by_cases heof : it.typ = .itemEOF
      · rw [if_pos heof] at h
        simp at h
        rw [← h]
        exact hinv
      · rw [if_neg heof] at h
        cases hts : topLevelStep m st it rest with
        | error e => rw [hts] at h; simp at h
        | ok pr2 =>
          obtain ⟨stA, rest2⟩ := pr2
          rw [hts] at h
          dsimp only at h
          exact ih stA rest2 st2 (topLevelStep_inv m st it rest stA rest2 hinv hts) h

/-- C9: for every token stream, however produced, and every fuel, a
successful parse run yields an ordered key-path list with no two equal
entries (headers included).  The backstop is setType: the first append
of a path records a type under its dot-joined string, and a second
append of the same path cannot reach its ordered-list update because
setType aborts on the already-recorded string. -/
theorem claim9_ordered_nodup (fuel : Nat) (toks : List item) (st : PState)
    (h : parseTokens fuel toks = .ok st) : st.ordered.Nodup := by
  have hinv : PInv initPState := by
    refine ⟨List.nodup_nil, ?_, ?_⟩ <;> simp [initPState]
  exact (parseItems_inv fuel initPState toks st hinv h).1

/-- Witness for C9: the parse of the token stream of `[a]` then `b = 1`
succeeds and its ordered list is duplicate-free. -/
theorem claim9_witness : ([["a"], ["a", "b"]] : List (List String)).Nodup := by
  have h := claim9_ordered_nodup 20
    [{ typ := .itemKeyGroupStart, val := "[", line := 1 },
     { typ := .itemText, val := "a", line := 1 },
     { typ := .itemKeyGroupEnd, val := "]", line := 1 },
     { typ := .itemKeyStart, val := "", line := 2 },
     { typ := .itemText, val := "b", line := 2 },
     { typ := .itemInteger, val := "1", line := 2 },
     { typ := .itemEOF, val := "", line := 3 }]
    { mapping := [("a", .table [("b", .int 1)])],
      types := [("a", tomlHash), ("a.b", tomlInteger)],
      ordered := [["a"], ["a", "b"]], context := ["a"], implicits := [] }
    (by rfl)
  exact h
